import Mathlib

/-!
Shallow embedding of the core of the pantheon-metrics-prometheus exporter:
the metrics store and Prometheus collector (internal/collector/collector.go)
and the refresh scheduler (internal/refresh/refresh.go).

Go maps are modelled as association lists (`List (String × MetricData)`,
unique keys) or key lists (`List String` for `map[string]bool` sets); Go
slices as `List`; machine integers as `Int`/`Nat`; `float64` metric values
as exact rationals `ℚ` (the claims under verification speak about decimal
values, not bit-level rounding).
-/

/-- One metric entry from Terminus (Go struct `pantheon.MetricData`). -/
structure MetricData where
  dateTime : String
  visits : Int
  pagesServed : Int
  cacheHits : Int
  cacheMisses : Int
  cacheHitRatio : String
deriving DecidableEq, Repr

/-- The Go zero value `pantheon.MetricData{}` (used by `var latestData MetricData`). -/
def MetricData.goZero : MetricData :=
  { dateTime := "", visits := 0, pagesServed := 0, cacheHits := 0,
    cacheMisses := 0, cacheHitRatio := "" }

/-- Metrics data for one site (Go struct `pantheon.SiteMetrics`); the
`MetricsData map[string]MetricData` field is an association list keyed by
the timestamp string. -/
structure SiteMetrics where
  siteName : String
  siteID : String
  label : String
  planName : String
  account : String
  metricsData : List (String × MetricData)
deriving DecidableEq, Repr

/-- `PantheonCollector.UpdateSiteMetrics` (collector.go): scan the site
slice, assign `MetricsData` of the first record whose `(Account, SiteName)`
matches and return; leave everything else untouched. The `sync.Mutex`
acquire/release around the body is dealt with in the interleaving model
below; this is the body's effect on the guarded slice. -/
def UpdateSiteMetrics (sites : List SiteMetrics) (accountID siteName : String)
    (metricsData : List (String × MetricData)) : List SiteMetrics :=
  match sites with
  | [] => []
  | s :: rest =>
    if s.account = accountID ∧ s.siteName = siteName then
      { s with metricsData := metricsData } :: rest
    else
      s :: UpdateSiteMetrics rest accountID siteName metricsData

/-- Whether a record matches the `(accountID, siteName)` identity key used
by `UpdateSiteMetrics`. -/
def siteKeyMatch (accountID siteName : String) (s : SiteMetrics) : Prop :=
  s.account = accountID ∧ s.siteName = siteName

instance (accountID siteName : String) (s : SiteMetrics) :
    Decidable (siteKeyMatch accountID siteName s) := by
  unfold siteKeyMatch; infer_instance

-- Demo records used by the concrete counterexamples and witnesses.

/-- A sample metric entry (values from the repository's own tests). -/
def mdOld : MetricData :=
  { dateTime := "2025-11-10T00:00:00", visits := 100, pagesServed := 500,
    cacheHits := 50, cacheMisses := 450, cacheHitRatio := "10%" }

/-- A later sample metric entry. -/
def mdNew : MetricData :=
  { dateTime := "2025-11-11T00:00:00", visits := 200, pagesServed := 1000,
    cacheHits := 100, cacheMisses := 900, cacheHitRatio := "10%" }

/-- A demo site record holding one sample keyed `"1762732800"`. -/
def demoSite : SiteMetrics :=
  { siteName := "site1", siteID := "uuid1", label := "Site 1",
    planName := "Basic", account := "account1",
    metricsData := [("1762732800", mdOld)] }

theorem UpdateSiteMetrics_nil (a n : String) (m : List (String × MetricData)) :
    UpdateSiteMetrics [] a n m = [] := rfl

theorem UpdateSiteMetrics_cons_match (s : SiteMetrics) (rest : List SiteMetrics)
    (a n : String) (m : List (String × MetricData))
    (h : s.account = a ∧ s.siteName = n) :
    UpdateSiteMetrics (s :: rest) a n m = { s with metricsData := m } :: rest := by
  simp [UpdateSiteMetrics, h]

theorem UpdateSiteMetrics_cons_nomatch (s : SiteMetrics) (rest : List SiteMetrics)
    (a n : String) (m : List (String × MetricData))
    (h : ¬(s.account = a ∧ s.siteName = n)) :
    UpdateSiteMetrics (s :: rest) a n m = s :: UpdateSiteMetrics rest a n m := by
  simp [UpdateSiteMetrics, h]

-- ### Numeric string parsing (strconv.ParseInt / strconv.ParseFloat models)

/-- True for an ASCII decimal digit. -/
def isDigitChar (c : Char) : Bool := decide ('0' ≤ c) && decide (c ≤ '9')

/-- Value of a list of decimal digits, most significant first. -/
def digitsVal (l : List Char) : Nat :=
  l.foldl (fun a c => a * 10 + (c.toNat - 48)) 0

/-- Model of Go `strconv.ParseInt(s, 10, 64)`: optional sign, one or more
decimal digits, nothing else, and the value must fit in a signed 64-bit
integer. Returns `none` where Go returns an error. -/
def parseInt64 (s : String) : Option Int :=
  let signed : Bool × List Char :=
    match s.data with
    | '+' :: rest => (false, rest)
    | '-' :: rest => (true, rest)
    | l => (false, l)
  let neg := signed.1
  let digits := signed.2
  if digits ≠ [] ∧ digits.all isDigitChar then
    let n := digitsVal digits
    if neg then
      if n ≤ 2 ^ 63 then some (-(n : Int)) else none
    else
      if n ≤ 2 ^ 63 - 1 then some (n : Int) else none
  else
    none

/-- Strip an optional leading sign; `true` means negative. -/
def parseSign : List Char → Bool × List Char
  | '-' :: rest => (true, rest)
  | '+' :: rest => (false, rest)
  | l => (false, l)

/-- Split at the first exponent marker `e`/`E`, if any. -/
def splitExp (l : List Char) : List Char × Option (List Char) :=
  match l.span (fun c => !(c = 'e' || c = 'E')) with
  | (pre, []) => (pre, none)
  | (pre, _ :: post) => (pre, some post)

/-- Parse an unsigned decimal mantissa: digits with at most one decimal
point and at least one digit overall. -/
def parseMantissa (l : List Char) : Option ℚ :=
  match l.splitOn '.' with
  | [ip] =>
    if ip ≠ [] ∧ ip.all isDigitChar then some ((digitsVal ip : ℚ)) else none
  | [ip, fp] =>
    if (ip ++ fp) ≠ [] ∧ ip.all isDigitChar ∧ fp.all isDigitChar then
      some ((digitsVal ip : ℚ) + (digitsVal fp : ℚ) / (10 : ℚ) ^ fp.length)
    else none
  | _ => none

/-- Parse a signed decimal exponent (digits required). -/
def parseExp (l : List Char) : Option Int :=
  let signed := parseSign l
  if signed.2 ≠ [] ∧ signed.2.all isDigitChar then
    some (if signed.1 then -(digitsVal signed.2 : Int) else (digitsVal signed.2 : Int))
  else none

/-- Model of Go `strconv.ParseFloat(s, 64)` on its decimal subset
(optional sign, decimal mantissa, optional `e`/`E` exponent). The value is
kept as an exact rational rather than a binary64 float: the claims under
verification are about decimal values. Strings outside this subset
(hex floats, `Inf`, `NaN`) do not occur in this program's ratio data and
are mapped to `none`. -/
def ParseFloat (s : String) : Option ℚ :=
  let signed := parseSign s.data
  let parts := splitExp signed.2
  match parseMantissa parts.1 with
  | none => none
  | some m =>
    match parts.2 with
    | none => some (if signed.1 then -m else m)
    | some ec =>
      match parseExp ec with
      | none => none
      | some e =>
        let v := m * (10 : ℚ) ^ e
        some (if signed.1 then -v else v)

/-- Model of Go `strings.TrimSuffix`. -/
def trimSuffix (s sfx : String) : String :=
  if sfx.data.isSuffixOf s.data then s.dropRight sfx.length else s

/-- Result of `parseCacheHitRatio`: the returned value and whether the
error branch logged a warning. -/
structure RatioResult where
  value : ℚ
  warned : Bool
deriving DecidableEq, Repr

/-- `PantheonCollector.parseCacheHitRatio` (collector.go): `"--"` is the
upstream "no data" sentinel and maps to 0 with no warning; otherwise trim a
trailing `"%"`, parse as a float (on failure log a warning and return 0),
and divide by 100 to convert the percentage to a ratio. -/
def parseCacheHitRatio (ratio : String) : RatioResult :=
  if ratio = "--" then ⟨0, false⟩
  else
    match ParseFloat (trimSuffix ratio "%") with
    | some v => ⟨v / 100, false⟩
    | none => ⟨0, true⟩

theorem parseCacheHitRatio_parse_ok (s : String) (p : ℚ) (hs : s ≠ "--")
    (hp : ParseFloat (trimSuffix s "%") = some p) :
    parseCacheHitRatio s = ⟨p / 100, false⟩ := by
  unfold parseCacheHitRatio
  rw [if_neg hs, hp]

-- ### Exporter (PantheonCollector.Collect, internal/collector/collector.go)

/-- The five metric families registered by `NewPantheonCollector`. -/
inductive MetricKind where
  | visits | pagesServed | cacheHits | cacheMisses | cacheHitRatio
deriving DecidableEq, Repr

/-- One emitted Prometheus point: metric family, the four label values
passed by `Collect` (in Go: `site.SiteName, site.Label, site.PlanName,
site.Account`), the point's timestamp in seconds, and the gauge value. -/
structure MetricPoint where
  kind : MetricKind
  siteName : String
  label : String
  planName : String
  account : String
  timestamp : Int
  value : ℚ
deriving DecidableEq, Repr

/-- The five `ch <- NewMetricWithTimestamp(...)` sends `Collect` performs
for one sample of one site, in source order. -/
def emitSiteSample (site : SiteMetrics) (data : MetricData) (ts : Int) :
    List MetricPoint :=
  [⟨.visits, site.siteName, site.label, site.planName, site.account, ts, (data.visits : ℚ)⟩,
   ⟨.pagesServed, site.siteName, site.label, site.planName, site.account, ts, (data.pagesServed : ℚ)⟩,
   ⟨.cacheHits, site.siteName, site.label, site.planName, site.account, ts, (data.cacheHits : ℚ)⟩,
   ⟨.cacheMisses, site.siteName, site.label, site.planName, site.account, ts, (data.cacheMisses : ℚ)⟩,
   ⟨.cacheHitRatio, site.siteName, site.label, site.planName, site.account, ts,
     (parseCacheHitRatio data.cacheHitRatio).value⟩]

/-- Accumulator of `Collect`'s first pass over a site's sample map. -/
structure LatestAcc where
  hasData : Bool
  latestTimestamp : Int
  latestTimestampStr : String
  latestData : MetricData

/-- First pass of `Collect` for one site: find the entry with the greatest
parseable timestamp (entries whose key fails `strconv.ParseInt` are
skipped; on a tie of parsed values the first one iterated wins because the
comparison is strict). -/
def findLatest (entries : List (String × MetricData)) : LatestAcc :=
  entries.foldl
    (fun acc e =>
      match parseInt64 e.1 with
      | none => acc
      | some t =>
        if !acc.hasData || t > acc.latestTimestamp then
          ⟨true, t, e.1, e.2⟩
        else acc)
    ⟨false, 0, "", MetricData.goZero⟩

/-- Second pass of `Collect` for one site: emit every entry except the one
whose key equals the latest key found in the first pass, at its own parsed
timestamp; keys that fail to parse are logged and skipped. -/
def collectHistorical (site : SiteMetrics) (latestStr : String) :
    List MetricPoint :=
  site.metricsData.flatMap fun e =>
    if e.1 = latestStr then []
    else
      match parseInt64 e.1 with
      | none => []
      | some t => emitSiteSample site e.2 t

/-- `Collect` restricted to one site: historical points, then (when any
entry parsed) the latest entry re-emitted at the current request time so
consumers can pull current data without gaps. `now` stands for the
`time.Now()` call, in seconds. -/
def collectSite (now : Int) (site : SiteMetrics) : List MetricPoint :=
  let acc := findLatest site.metricsData
  collectHistorical site acc.latestTimestampStr ++
    (if acc.hasData then emitSiteSample site acc.latestData now else [])

/-- `PantheonCollector.Collect`: iterate the (read-locked) site slice. -/
def Collect (now : Int) (sites : List SiteMetrics) : List MetricPoint :=
  sites.flatMap (collectSite now)

-- ### Refresh scheduler (internal/refresh/refresh.go)

/-- `RefreshMetricsDuration`: window for subsequent metrics refreshes. -/
def RefreshMetricsDuration : String := "1d"

/-- `InitialMetricsDuration`: window for the first metrics fetch of a
not-yet-discovered site. -/
def InitialMetricsDuration : String := "28d"

/-- The `account:site` identity key (`site.Account + ":" + site.SiteName`). -/
def siteKey (accountID siteName : String) : String :=
  accountID ++ ":" ++ siteName

/-- Setting `m[key] = true` on a Go `map[string]bool` used as a set,
modelled on a key list: append the key unless already present. -/
def insertKey (keys : List String) (k : String) : List String :=
  if keys.contains k then keys else keys ++ [k]

/-- `buildSiteKeyMap`: the identity-key set of a site list. -/
def buildSiteKeyMap (sites : List SiteMetrics) : List String :=
  sites.foldl (fun m s => insertKey m (siteKey s.account s.siteName)) []

/-- `Manager.InitializeDiscoveredSites`: mark every site currently in the
collector as discovered (`rm.discoveredSites[key] = true` per site). -/
def InitializeDiscoveredSites (discoveredSites : List String)
    (sites : List SiteMetrics) : List String :=
  sites.foldl (fun d s => insertKey d (siteKey s.account s.siteName)) discoveredSites

/-- `findAddedSites`: keys of the newly fetched set that are neither in the
current store's key set nor in the discovered-sites set. `newSites` is the
key list of a Go map, so its iteration visits each key once. -/
def findAddedSites (currentSites newSites discoveredSites : List String) :
    List String :=
  newSites.filter fun key =>
    !currentSites.contains key && !discoveredSites.contains key

/-- `findRemovedSites`: keys of the current store's key set missing from
the newly fetched set. -/
def findRemovedSites (currentSites newSites : List String) : List String :=
  currentSites.filter fun key => !newSites.contains key

/-- The added/removed reports of one discovery cycle and the discovered-set
it leaves behind. -/
structure CycleResult where
  addedSites : List String
  removedSites : List String
  discoveredSites : List String
deriving DecidableEq, Repr

/-- The site-set bookkeeping of `refreshAllSiteLists` (lines after all
accounts were fetched): diff the current store keys against the newly
fetched keys, then mark every reported-added key as discovered. -/
def refreshAllSiteListsDiff (currentSites newSites discoveredSites : List String) :
    CycleResult :=
  let added := findAddedSites currentSites newSites discoveredSites
  let removed := findRemovedSites currentSites newSites
  { addedSites := added
    removedSites := removed
    discoveredSites := added.foldl insertKey discoveredSites }

/-- Window choice and discovered-set update of `refreshSiteMetrics`:
start from the incremental window; if the site's key is not yet in the
discovered set, switch to the long backfill window and mark the key. -/
structure FetchChoice where
  duration : String
  discoveredSites : List String
deriving DecidableEq, Repr

/-- `refreshSiteMetrics` (duration determination, lines 879-886 of the
refresh source): the choice is a function of Discovery Set membership at
the time of the fetch. -/
def refreshSiteMetricsDuration (discoveredSites : List String)
    (accountID siteName : String) : FetchChoice :=
  let key := siteKey accountID siteName
  if discoveredSites.contains key then
    ⟨RefreshMetricsDuration, discoveredSites⟩
  else
    ⟨InitialMetricsDuration, insertKey discoveredSites key⟩

/-- Ceiling division, modelling `int(math.Ceil(float64(n) / float64(d)))`
for the integral site counts and whole-minute intervals the loop uses. -/
def ceilDiv (n d : Nat) : Nat := (n + d - 1) / d

/-- Cursor state of `refreshMetricsWithQueue` between ticks: the rotating
`siteIndex` and how many completed-full-cycle logs were emitted. -/
structure QueueState where
  siteIndex : Nat
  cycleCompletions : Nat
deriving DecidableEq, Repr

/-- One tick of `refreshMetricsWithQueue` over a store of `n` sites with a
discovery interval of `d` minutes: recompute `sitesPerMinute =
ceil(n / d)` from the current count, clamp the cursor if the site count
shrank, dispatch the batch `sites[siteIndex:endIndex]` (returned as the
index range), advance the cursor and wrap it to 0 at the end of the list.
With `n = 0` the tick just waits for sites to be populated. -/
def refreshTick (n d : Nat) (st : QueueState) : QueueState × List Nat :=
  if n = 0 then (st, [])
  else
    let sitesPerMinute := ceilDiv n d
    let i := if st.siteIndex ≥ n then 0 else st.siteIndex
    let endIndex := min (i + sitesPerMinute) n
    let batch := List.range' i (endIndex - i)
    if endIndex ≥ n then
      (⟨0, st.cycleCompletions + 1⟩, batch)
    else
      (⟨endIndex, st.cycleCompletions⟩, batch)

/-- Run `k` consecutive ticks with an unchanged site list, collecting every
dispatched site index in order. -/
def runTicks (n d : Nat) : Nat → QueueState → QueueState × List Nat
  | 0, st => (st, [])
  | k + 1, st =>
    let step := refreshTick n d st
    let rest := runTicks n d k step.1
    (rest.1, step.2 ++ rest.2)

-- ### Interleaving model of GetSites / UpdateSites under sync.RWMutex

/-- Control state of one `GetSites` call: before `RLock`; inside the read
critical section copying element `j` with partial copy `buf`; or returned
with its snapshot. -/
inductive ReaderState where
  | idle : ReaderState
  | copying (buf : List SiteMetrics) (j : Nat) : ReaderState
  | finished (result : List SiteMetrics) : ReaderState
deriving DecidableEq, Repr

/-- A configuration of the store shared between one `GetSites` call and one
`UpdateSites` call: the guarded slice, the RWMutex (reader count and writer
flag), and both threads' control states. `wpc` walks `UpdateSites`:
0 = before `Lock`, 1 = holding the lock before the slice assignment,
2 = assigned, before `Unlock`, 3 = returned. -/
structure StoreConfig where
  sites : List SiteMetrics
  readers : Nat
  writerHeld : Bool
  rpc : ReaderState
  wpc : Nat
deriving DecidableEq, Repr

/-- One step of the `GetSites` thread. `RLock` blocks (no state change)
while the writer holds the lock; the copy loop transfers one element per
step (finer-grained than Go's `copy` builtin, which only strengthens the
result); the final step is `RUnlock` together with returning the copy. -/
def stepGetSites (c : StoreConfig) : StoreConfig :=
  match c.rpc with
  | .idle =>
    if c.writerHeld then c
    else { c with readers := c.readers + 1, rpc := .copying [] 0 }
  | .copying buf j =>
    if h : j < c.sites.length then
      { c with rpc := .copying (buf ++ [c.sites.get ⟨j, h⟩]) (j + 1) }
    else
      { c with readers := c.readers - 1, rpc := .finished buf }
  | .finished _ => c

/-- One step of the `UpdateSites newSites` thread. `Lock` blocks while any
reader or the writer holds the RWMutex; the assignment `c.sites = sites`
is one store; then `Unlock`. -/
def stepUpdateSites (newSites : List SiteMetrics) (c : StoreConfig) :
    StoreConfig :=
  match c.wpc with
  | 0 =>
    if c.writerHeld || c.readers ≠ 0 then c
    else { c with writerHeld := true, wpc := 1 }
  | 1 => { c with sites := newSites, wpc := 2 }
  | 2 => { c with writerHeld := false, wpc := 3 }
  | _ => c

/-- Run a schedule: `true` steps the `GetSites` thread, `false` the
`UpdateSites` thread. -/
def runSchedule (newSites : List SiteMetrics) (sched : List Bool)
    (c : StoreConfig) : StoreConfig :=
  sched.foldl (fun c b => if b then stepGetSites c else stepUpdateSites newSites c) c

/-- Initial configuration: the store holds `oldSites`, the lock is free,
both calls are about to start. -/
def initConfig (oldSites : List SiteMetrics) : StoreConfig :=
  { sites := oldSites, readers := 0, writerHeld := false, rpc := .idle, wpc := 0 }

/-- C7: when no record matches the `(accountID, siteName)` identity key,
`UpdateSiteMetrics` falls off the end of its loop and returns normally
(it is a total function of the store, so no error and no abnormal exit)
with the entire store state unchanged. -/
theorem updateSiteMetrics_no_match_id (sites : List SiteMetrics)
    (a n : String) (m : List (String × MetricData))
    (h : ∀ s ∈ sites, ¬(s.account = a ∧ s.siteName = n)) :
    UpdateSiteMetrics sites a n m = sites := by
  induction sites with
  | nil => rfl
  | cons s rest ih =>
    rw [UpdateSiteMetrics_cons_nomatch s rest a n m (h s (List.mem_cons_self s rest))]
    rw [ih (fun t ht => h t (List.mem_cons_of_mem s ht))]

/-- Witness for C7 at the concrete no-match input used by the repository's
`TestUpdateSiteMetricsNonExistent` test. -/
theorem updateSiteMetrics_no_match_id_witness :
    UpdateSiteMetrics [demoSite] "account999" "nonexistent"
      [("1762819200", mdNew)] = [demoSite] :=
  updateSiteMetrics_no_match_id [demoSite] "account999" "nonexistent"
    [("1762819200", mdNew)] (by decide)

/-- C1 counterexample: `UpdateSiteMetrics` assigns the new sample map
wholesale (`c.sites[i].MetricsData = metricsData`), so at this concrete
store the timestamp `"1762732800"`, present before the call and absent
from `samples`, is gone afterwards — refuting "every timestamp present
before the call is still present". The record matched, so the claim's
precondition held. -/
theorem mergeSiteSamples_union_counterexample :
    (demoSite.account = "account1" ∧ demoSite.siteName = "site1") ∧
    demoSite.metricsData.lookup "1762732800" = some mdOld ∧
    UpdateSiteMetrics [demoSite] "account1" "site1" [("1762819200", mdNew)] =
      [{ demoSite with metricsData := [("1762819200", mdNew)] }] ∧
    ([("1762819200", mdNew)] : List (String × MetricData)).lookup "1762732800" = none := by
  refine ⟨⟨rfl, rfl⟩, rfl, ?_, rfl⟩
  decide

/-- C1 amended: when a record matching the `(accountID, siteName)` identity
key exists, the first matching record's sample map afterwards is exactly
`samples` (so every timestamp of `samples` is present with its value from
`samples`), replacing — not unioned with — the previous map. -/
theorem updateSiteMetrics_replaces_samples (sites : List SiteMetrics)
    (a n : String) (m : List (String × MetricData))
    (h : ∃ s ∈ sites, s.account = a ∧ s.siteName = n) :
    ((UpdateSiteMetrics sites a n m).find?
        (fun s => s.account == a && s.siteName == n)).map SiteMetrics.metricsData =
      some m := by
  induction sites with
  | nil => simp at h
  | cons s rest ih =>
    by_cases hm : s.account = a ∧ s.siteName = n
    · rw [UpdateSiteMetrics_cons_match s rest a n m hm]
      have hb : ((s.account == a) && (s.siteName == n)) = true := by
        simp [hm.1, hm.2]
      simp [List.find?, hb]
    · rw [UpdateSiteMetrics_cons_nomatch s rest a n m hm]
      have hb : ((s.account == a) && (s.siteName == n)) = false := by
        rcases not_and_or.mp hm with h1 | h1 <;> simp [h1]
      rw [List.find?]
      rw [hb]
      apply ih
      rcases h with ⟨t, ht, hta⟩
      rcases List.mem_cons.mp ht with rfl | htr
      · exact absurd hta hm
      · exact ⟨t, htr, hta⟩

/-- Witness for the amended C1 at a concrete matching store. -/
theorem updateSiteMetrics_replaces_samples_witness :
    ((UpdateSiteMetrics [demoSite] "account1" "site1" [("1762819200", mdNew)]).find?
        (fun s => s.account == "account1" && s.siteName == "site1")).map
      SiteMetrics.metricsData = some [("1762819200", mdNew)] :=
  updateSiteMetrics_replaces_samples [demoSite] "account1" "site1"
    [("1762819200", mdNew)] ⟨demoSite, by decide⟩

/-- C10: `UpdateSiteMetrics` with a matching key rewrites exactly the first
matching record (in slice order), setting only its `MetricsData` field to
`m`; the result is `sites.set i` of that record with `metricsData := m`,
which keeps the length, the order, every other record (including later
duplicate-key records) and the updated record's remaining fields. -/
theorem updateSiteMetrics_frame (sites : List SiteMetrics) (a n : String)
    (m : List (String × MetricData))
    (h : ∃ s ∈ sites, s.account = a ∧ s.siteName = n) :
    ∃ i, ∃ hi : i < sites.length,
      (sites.get ⟨i, hi⟩).account = a ∧ (sites.get ⟨i, hi⟩).siteName = n ∧
      (∀ j, ∀ hj : j < sites.length, j < i →
        ¬((sites.get ⟨j, hj⟩).account = a ∧ (sites.get ⟨j, hj⟩).siteName = n)) ∧
      UpdateSiteMetrics sites a n m =
        sites.set i { sites.get ⟨i, hi⟩ with metricsData := m } := by
  induction sites with
  | nil => simp at h
  | cons s rest ih =>
    by_cases hm : s.account = a ∧ s.siteName = n
    · refine ⟨0, Nat.succ_pos _, hm.1, hm.2, ?_, ?_⟩
      · intro j hj hj0
        exact absurd hj0 (Nat.not_lt_zero j)
      · rw [UpdateSiteMetrics_cons_match s rest a n m hm]
        rfl
    · have hrest : ∃ t ∈ rest, t.account = a ∧ t.siteName = n := by
        rcases h with ⟨t, ht, hta⟩
        rcases List.mem_cons.mp ht with rfl | htr
        · exact absurd hta hm
        · exact ⟨t, htr, hta⟩
      rcases ih hrest with ⟨i, hi, h1, h2, h3, h4⟩
      refine ⟨i + 1, Nat.succ_lt_succ hi, h1, h2, ?_, ?_⟩
      · intro j hj hji
        cases j with
        | zero => exact hm
        | succ j => exact h3 j (Nat.lt_of_succ_lt_succ hj) (Nat.lt_of_succ_lt_succ hji)
      · rw [UpdateSiteMetrics_cons_nomatch s rest a n m hm, h4]
        rfl

/-- Witness for C10 at a concrete two-site store where only the first site
matches and the second must stay untouched. -/
theorem updateSiteMetrics_frame_witness :
    ∃ i, ∃ hi : i < ([demoSite, { demoSite with siteName := "site2" }] :
        List SiteMetrics).length,
      (([demoSite, { demoSite with siteName := "site2" }] :
          List SiteMetrics).get ⟨i, hi⟩).account = "account1" ∧
      (([demoSite, { demoSite with siteName := "site2" }] :
          List SiteMetrics).get ⟨i, hi⟩).siteName = "site1" ∧
      (∀ j, ∀ hj : j < ([demoSite, { demoSite with siteName := "site2" }] :
          List SiteMetrics).length, j < i →
        ¬((([demoSite, { demoSite with siteName := "site2" }] :
            List SiteMetrics).get ⟨j, hj⟩).account = "account1" ∧
          (([demoSite, { demoSite with siteName := "site2" }] :
            List SiteMetrics).get ⟨j, hj⟩).siteName = "site1")) ∧
      UpdateSiteMetrics [demoSite, { demoSite with siteName := "site2" }]
          "account1" "site1" [("1762819200", mdNew)] =
        ([demoSite, { demoSite with siteName := "site2" }] :
            List SiteMetrics).set i
          { ([demoSite, { demoSite with siteName := "site2" }] :
              List SiteMetrics).get ⟨i, hi⟩ with
            metricsData := [("1762819200", mdNew)] } :=
  updateSiteMetrics_frame [demoSite, { demoSite with siteName := "site2" }]
    "account1" "site1" [("1762819200", mdNew)] ⟨demoSite, by decide⟩

/-- C3: the cache-hit-ratio conversion returns 0.0386 for `"3.86%"` and for
`"3.86"` (a missing `"%"` suffix still parses), 0 without a warning for the
sentinel `"--"`, 0 with a logged warning for `"invalid%"` whose numeric
part does not parse, and for every string whose trimmed percentage parses
to `p` the result is `p / 100` with no warning. -/
theorem cacheHitRatio_conversion :
    parseCacheHitRatio "3.86%" = ⟨0.0386, false⟩ ∧
    parseCacheHitRatio "3.86" = ⟨0.0386, false⟩ ∧
    parseCacheHitRatio "--" = ⟨0, false⟩ ∧
    parseCacheHitRatio "invalid%" = ⟨0, true⟩ ∧
    ∀ (r : String) (p : ℚ), r ≠ "--" → ParseFloat (trimSuffix r "%") = some p →
      parseCacheHitRatio r = ⟨p / 100, false⟩ := by
  have h386 : ∀ r : String, r ≠ "--" → trimSuffix r "%" = "3.86" →
      parseCacheHitRatio r = ⟨0.0386, false⟩ := by
    intro r hr htrim
    have h1 : ParseFloat (trimSuffix r "%") =
        some ((digitsVal ['3'] : ℚ) +
          (digitsVal ['8', '6'] : ℚ) / (10 : ℚ) ^ (2 : ℕ)) := by
      rw [htrim]
      exact rfl
    have h2 : digitsVal ['3'] = 3 := by decide
    have h3 : digitsVal ['8', '6'] = 86 := by decide
    rw [h2, h3] at h1
    rw [parseCacheHitRatio_parse_ok r _ hr h1]
    norm_num
  refine ⟨h386 "3.86%" (by decide) (by decide),
          h386 "3.86" (by decide) (by decide), rfl, rfl, ?_⟩
  intro r p hr hp
  exact parseCacheHitRatio_parse_ok r p hr hp

/-- Witness for C3's universal conjunct at the concrete input `"50%"`. -/
theorem cacheHitRatio_conversion_witness :
    parseCacheHitRatio "50%" = ⟨(50 : ℚ) / 100, false⟩ := by
  have h1 : ParseFloat (trimSuffix "50%" "%") =
      some ((digitsVal ['5', '0'] : ℚ)) := rfl
  have h2 : digitsVal ['5', '0'] = 50 := by decide
  rw [h2] at h1
  have h3 : ((50 : ℕ) : ℚ) = (50 : ℚ) := by norm_num
  rw [h3] at h1
  exact cacheHitRatio_conversion.2.2.2.2 "50%" 50 (by decide) h1

/-- C2: exporting a store with one site whose sample map holds three
samples with distinct, parseable, increasing timestamps emits exactly the
five metric kinds at each of the two earlier samples' original timestamps
(2×5 points) followed by the five kinds at the export call's current
wall-clock time carrying the latest sample's values. -/
theorem collect_three_samples_forward_fill
    (site : SiteMetrics) (now t1 t2 t3 : Int) (s1 s2 s3 : String)
    (d1 d2 d3 : MetricData)
    (hmap : site.metricsData = [(s1, d1), (s2, d2), (s3, d3)])
    (h1 : parseInt64 s1 = some t1) (h2 : parseInt64 s2 = some t2)
    (h3 : parseInt64 s3 = some t3)
    (h12 : t1 < t2) (h23 : t2 < t3) :
    Collect now [site] =
      emitSiteSample site d1 t1 ++ emitSiteSample site d2 t2 ++
        emitSiteSample site d3 now := by
  have h13 : t1 < t3 := lt_trans h12 h23
  have hne13 : s1 ≠ s3 := by
    intro he
    rw [he, h3] at h1
    exact absurd (Option.some.inj h1) (ne_of_gt h13)
  have hne23 : s2 ≠ s3 := by
    intro he
    rw [he, h3] at h2
    exact absurd (Option.some.inj h2) (ne_of_gt h23)
  have hlatest : findLatest site.metricsData = ⟨true, t3, s3, d3⟩ := by
    rw [hmap]
    simp [findLatest, h1, h2, h3, h12, h23]
  have hhist : collectHistorical site s3 =
      emitSiteSample site d1 t1 ++ emitSiteSample site d2 t2 := by
    unfold collectHistorical
    rw [hmap]
    simp [hne13, hne23, h1, h2]
  simp [Collect, collectSite, hlatest, hhist]

/-- Witness for C2 at a concrete one-site store with timestamps 100, 200,
300 exported at wall-clock time 1000. -/
theorem collect_three_samples_forward_fill_witness :
    Collect 1000
        [{ demoSite with
            metricsData := [("100", mdOld), ("200", mdOld), ("300", mdNew)] }] =
      emitSiteSample
          { demoSite with
            metricsData := [("100", mdOld), ("200", mdOld), ("300", mdNew)] }
          mdOld 100 ++
        emitSiteSample
          { demoSite with
            metricsData := [("100", mdOld), ("200", mdOld), ("300", mdNew)] }
          mdOld 200 ++
        emitSiteSample
          { demoSite with
            metricsData := [("100", mdOld), ("200", mdOld), ("300", mdNew)] }
          mdNew 1000 :=
  collect_three_samples_forward_fill _ 1000 100 200 300 "100" "200" "300"
    mdOld mdOld mdNew rfl (by decide) (by decide) (by decide)
    (by decide) (by decide)

theorem mem_foldl_of_mem {α : Type} (f : List String → α → List String)
    (hf : ∀ d x k, k ∈ d → k ∈ f d x) (xs : List α) :
    ∀ d k, k ∈ d → k ∈ xs.foldl f d := by
  induction xs with
  | nil => intro d k h; exact h
  | cons x xs ih => intro d k h; exact ih (f d x) k (hf d x k h)

theorem mem_insertKey (l : List String) (k x : String) (h : k ∈ l) :
    k ∈ insertKey l x := by
  unfold insertKey
  split
  · exact h
  · exact List.mem_append_left _ h

/-- C4: in a discovery cycle whose incoming state satisfies the scheduler's
invariant (every key in the current store was already marked discovered —
established by `InitializeDiscoveredSites` at startup and preserved by
every cycle), each key of the newly fetched set that is not in the
Discovery Set is reported "added" exactly once, and each key of the
previous store absent from the newly fetched set is reported "removed"
exactly once. `newSites` and `currentSites` are key sets of Go maps, hence
duplicate-free. -/
theorem discovery_added_removed_reported_once
    (currentSites newSites discoveredSites : List String)
    (hn : newSites.Nodup) (hc : currentSites.Nodup)
    (hinv : ∀ k ∈ currentSites, k ∈ discoveredSites) :
    (∀ k, k ∈ newSites → k ∉ discoveredSites →
      (refreshAllSiteListsDiff currentSites newSites
          discoveredSites).addedSites.count k = 1) ∧
    (∀ k, k ∈ currentSites → k ∉ newSites →
      (refreshAllSiteListsDiff currentSites newSites
          discoveredSites).removedSites.count k = 1) := by
  constructor
  · intro k hknew hkdisc
    have hkcur : k ∉ currentSites := fun hk => hkdisc (hinv k hk)
    have hmem : k ∈ findAddedSites currentSites newSites discoveredSites := by
      unfold findAddedSites
      rw [List.mem_filter]
      refine ⟨hknew, ?_⟩
      simp [hkcur, hkdisc]
    have hnd : (findAddedSites currentSites newSites discoveredSites).Nodup :=
      List.Nodup.filter _ hn
    exact List.count_eq_one_of_mem hnd hmem
  · intro k hkcur hknew
    have hmem : k ∈ findRemovedSites currentSites newSites := by
      unfold findRemovedSites
      rw [List.mem_filter]
      refine ⟨hkcur, ?_⟩
      simp [hknew]
    have hnd : (findRemovedSites currentSites newSites).Nodup :=
      List.Nodup.filter _ hc
    exact List.count_eq_one_of_mem hnd hmem

/-- Witness for C4 at a concrete cycle: previous store `{a:1, a:3}`, newly
fetched `{a:1, a:2}`, Discovery Set `{a:1, a:3}`: `a:2` is reported added
exactly once and `a:3` removed exactly once. -/
theorem discovery_added_removed_reported_once_witness :
    (refreshAllSiteListsDiff ["a:1", "a:3"] ["a:1", "a:2"]
        ["a:1", "a:3"]).addedSites.count "a:2" = 1 ∧
    (refreshAllSiteListsDiff ["a:1", "a:3"] ["a:1", "a:2"]
        ["a:1", "a:3"]).removedSites.count "a:3" = 1 :=
  ⟨(discovery_added_removed_reported_once ["a:1", "a:3"] ["a:1", "a:2"]
      ["a:1", "a:3"] (by decide) (by decide) (by decide)).1 "a:2"
      (by decide) (by decide),
   (discovery_added_removed_reported_once ["a:1", "a:3"] ["a:1", "a:2"]
      ["a:1", "a:3"] (by decide) (by decide) (by decide)).2 "a:3"
      (by decide) (by decide)⟩

/-- C5 counterexample: a site first seen by a discovery cycle is put into
the Discovery Set when it is reported "added" — before any metrics fetch —
so its first per-site metrics-refresh fetch since process start uses the
short window `"1d"`, not the long backfill window `"28d"` the claim
requires. -/
theorem first_fetch_window_counterexample :
    (refreshAllSiteListsDiff [] ["acct:site"] []).addedSites = ["acct:site"] ∧
    (refreshSiteMetricsDuration
        (refreshAllSiteListsDiff [] ["acct:site"] []).discoveredSites
        "acct" "site").duration = RefreshMetricsDuration ∧
    RefreshMetricsDuration ≠ InitialMetricsDuration := by
  decide

/-- C5 amended: the window is a function of Discovery Set membership at
fetch time — a fetch for a key not yet in the set uses `"28d"` and marks
the key, so every later fetch for that site (third conjunct) uses `"1d"`;
a fetch for a key already in the set (via initialization, a discovery
cycle's added-marking, or an earlier fetch) uses `"1d"` and leaves the set
unchanged, even if it is the site's first fetch. -/
theorem fetch_window_discovery_membership (disc : List String)
    (a n : String) :
    (siteKey a n ∈ disc →
      refreshSiteMetricsDuration disc a n = ⟨RefreshMetricsDuration, disc⟩) ∧
    (siteKey a n ∉ disc →
      (refreshSiteMetricsDuration disc a n).duration = InitialMetricsDuration ∧
      siteKey a n ∈ (refreshSiteMetricsDuration disc a n).discoveredSites) ∧
    (refreshSiteMetricsDuration
        (refreshSiteMetricsDuration disc a n).discoveredSites a n).duration =
      RefreshMetricsDuration := by
  refine ⟨?_, ?_, ?_⟩
  · intro h
    unfold refreshSiteMetricsDuration
    simp [h]
  · intro h
    unfold refreshSiteMetricsDuration
    simp [h, insertKey]
  · by_cases h : siteKey a n ∈ disc
    · unfold refreshSiteMetricsDuration
      simp [h]
    · unfold refreshSiteMetricsDuration insertKey
      simp [h]

/-- Witness for C5's amended statement: a not-yet-discovered site gets the
backfill window and is marked. -/
theorem fetch_window_discovery_membership_witness :
    (refreshSiteMetricsDuration [] "a" "s").duration = InitialMetricsDuration ∧
    siteKey "a" "s" ∈ (refreshSiteMetricsDuration [] "a" "s").discoveredSites :=
  (fetch_window_discovery_membership [] "a" "s").2.1 (by decide)

/-- C6 counterexample: with 3 sites and a 2-minute discovery interval
(`ceil(3/2) = 2`), the second tick's dispatched batch holds a single site,
not `ceil(N/D)`: the batch is clamped at the end of the site list. -/
theorem batch_size_counterexample :
    ceilDiv 3 2 = 2 ∧
    (refreshTick 3 2 (refreshTick 3 2 ⟨0, 0⟩).1).2.length = 1 := by
  decide

/-- C6 amended: on a tick with `n ≥ 1` sites the dispatched batch size is
`min (ceil(n/d)) (n - cursor)` (cursor clamped to 0 if it exceeds `n`), so
it equals `ceil(n/d)` except for a shorter final batch at the end of the
list; with 100 sites and a 60-minute interval every tick dispatches 2
sites, 50 consecutive ticks dispatch exactly the indices 0..99 in order —
each site exactly once — and the cursor wraps to 0 exactly once. -/
theorem batch_size_and_cycle :
    (∀ n d : Nat, ∀ st : QueueState, 1 ≤ n →
      (refreshTick n d st).2.length =
        min (ceilDiv n d) (n - (if st.siteIndex ≥ n then 0 else st.siteIndex))) ∧
    (runTicks 100 60 50 ⟨0, 0⟩).2 = List.range 100 ∧
    (runTicks 100 60 50 ⟨0, 0⟩).1.cycleCompletions = 1 ∧
    (∀ i, i < 100 → (runTicks 100 60 50 ⟨0, 0⟩).2.count i = 1) := by
  have hrange : (runTicks 100 60 50 ⟨0, 0⟩).2 = List.range 100 := by decide
  refine ⟨?_, hrange, by decide, ?_⟩
  · intro n d st h1
    have hn : ¬ n = 0 := by omega
    unfold refreshTick
    rw [if_neg hn]
    set i := if st.siteIndex ≥ n then 0 else st.siteIndex with hi
    have hin : i ≤ n := by
      rw [hi]
      split <;> omega
    by_cases hw : min (i + ceilDiv n d) n ≥ n
    · simp only [hw, if_pos]
      rw [List.length_range']
      omega
    · simp only [hw, if_neg, not_false_iff]
      rw [List.length_range']
      omega
  · intro i hi
    rw [hrange]
    exact List.count_eq_one_of_mem (List.nodup_range 100) (List.mem_range.mpr hi)

/-- Witness for C6's amended batch-size formula at the concrete
100-site, 60-minute configuration of the claim. -/
theorem batch_size_and_cycle_witness :
    (refreshTick 100 60 ⟨0, 0⟩).2.length =
      min (ceilDiv 100 60)
        (100 - (if (QueueState.mk 0 0).siteIndex ≥ 100 then 0
          else (QueueState.mk 0 0).siteIndex)) :=
  batch_size_and_cycle.1 100 60 ⟨0, 0⟩ (by decide)

/-- C8: every scheduler operation touching the Discovery Set —
`InitializeDiscoveredSites`, the added-site marking of a discovery cycle
(`refreshAllSiteLists`), and the first-fetch marking of
`refreshSiteMetrics` — only adds keys: a key present before any of them is
present afterwards, so the set grows monotonically over the process
lifetime. -/
theorem discoveredSites_monotone :
    (∀ (d : List String) (sites : List SiteMetrics) (k : String), k ∈ d →
      k ∈ InitializeDiscoveredSites d sites) ∧
    (∀ (cur new d : List String) (k : String), k ∈ d →
      k ∈ (refreshAllSiteListsDiff cur new d).discoveredSites) ∧
    (∀ (d : List String) (a n k : String), k ∈ d →
      k ∈ (refreshSiteMetricsDuration d a n).discoveredSites) := by
  refine ⟨?_, ?_, ?_⟩
  · intro d sites k h
    exact mem_foldl_of_mem _ (fun d s k hk => mem_insertKey d k _ hk) sites d k h
  · intro cur new d k h
    exact mem_foldl_of_mem insertKey (fun d x k hk => mem_insertKey d k x hk)
      (findAddedSites cur new d) d k h
  · intro d a n k h
    by_cases hc : siteKey a n ∈ d
    · have he : refreshSiteMetricsDuration d a n =
          ⟨RefreshMetricsDuration, d⟩ := by
        simp [refreshSiteMetricsDuration, hc]
      rw [he]
      exact h
    · have he : refreshSiteMetricsDuration d a n =
          ⟨InitialMetricsDuration, insertKey d (siteKey a n)⟩ := by
        simp [refreshSiteMetricsDuration, hc]
      rw [he]
      exact mem_insertKey d k _ h

/-- Witness for C8: a previously discovered key survives each of the three
operations at concrete inputs. -/
theorem discoveredSites_monotone_witness :
    ("k" ∈ InitializeDiscoveredSites ["k"] [demoSite]) ∧
    ("k" ∈ (refreshAllSiteListsDiff [] ["a:1"] ["k"]).discoveredSites) ∧
    ("k" ∈ (refreshSiteMetricsDuration ["k"] "a" "s").discoveredSites) :=
  ⟨discoveredSites_monotone.1 ["k"] [demoSite] "k" (by decide),
   discoveredSites_monotone.2.1 [] ["a:1"] ["k"] "k" (by decide),
   discoveredSites_monotone.2.2 ["k"] "a" "s" "k" (by decide)⟩

/-- Number of read locks the single `GetSites` thread holds in a given
control state. -/
def readerCount : ReaderState → Nat
  | .copying _ _ => 1
  | _ => 0

/-- Inductive invariant of the two-thread system: the RWMutex fields agree
with the two control states; the guarded slice is the old list until the
writer's assignment and the new list after it; the reader's critical
section excludes the writer (so its partial copy is a prefix of a stable
slice); and a finished snapshot is the full old or the full new list. -/
def ConfigInv (oldS newS : List SiteMetrics) (c : StoreConfig) : Prop :=
  (c.writerHeld = true ↔ (c.wpc = 1 ∨ c.wpc = 2)) ∧
  (c.sites = if c.wpc ≤ 1 then oldS else newS) ∧
  (c.readers = readerCount c.rpc) ∧
  (∀ buf j, c.rpc = .copying buf j →
    (c.wpc = 0 ∨ 3 ≤ c.wpc) ∧ buf = c.sites.take j ∧ j ≤ c.sites.length) ∧
  (∀ r, c.rpc = .finished r → r = oldS ∨ r = newS)

theorem inv_initConfig (oldS newS : List SiteMetrics) :
    ConfigInv oldS newS (initConfig oldS) := by
  refine ⟨by simp [initConfig], by simp [initConfig], by simp [initConfig, readerCount], ?_, ?_⟩
  · intro buf j hbj
    simp [initConfig] at hbj
  · intro r hr
    simp [initConfig] at hr

theorem inv_stepGetSites (oldS newS : List SiteMetrics) (c : StoreConfig)
    (h : ConfigInv oldS newS c) : ConfigInv oldS newS (stepGetSites c) := by
  obtain ⟨sites, readers, writerHeld, rpc, wpc⟩ := c
  obtain ⟨h1, h2, h3, h4, h5⟩ := h
  simp only at h1 h2 h3 h4 h5
  cases rpc with
  | idle =>
    cases writerHeld with
    | true => exact ⟨h1, h2, h3, h4, h5⟩
    | false =>
      have hreaders : readers = 0 := by simpa [readerCount] using h3
      have hwpc : wpc = 0 ∨ 3 ≤ wpc := by
        have := h1.mpr
        by_contra hcon
        push_neg at hcon
        have hw12 : wpc = 1 ∨ wpc = 2 := by omega
        exact Bool.false_ne_true (h1.mpr hw12)
      refine ⟨?_, ?_, ?_, ?_, ?_⟩
      · simpa [stepGetSites] using h1
      · simpa [stepGetSites] using h2
      · simp [stepGetSites, readerCount, hreaders]
      · intro buf j hbj
        simp [stepGetSites] at hbj
        obtain ⟨hb, hj⟩ := hbj
        subst hb
        subst hj
        exact ⟨hwpc, by simp, by simp⟩
      · intro r hr
        simp [stepGetSites] at hr
  | copying buf j =>
    have hcl := h4 buf j rfl
    by_cases hj : j < sites.length
    · have hstep : stepGetSites ⟨sites, readers, writerHeld, .copying buf j, wpc⟩ =
          ⟨sites, readers, writerHeld,
            .copying (buf ++ [sites.get ⟨j, hj⟩]) (j + 1), wpc⟩ := by
        simp [stepGetSites, hj]
      rw [hstep]
      refine ⟨h1, h2, by simpa [readerCount] using h3, ?_, ?_⟩
      · intro buf2 j2 hbj
        injection hbj with hb hj2
        subst hb
        subst hj2
        refine ⟨hcl.1, ?_, ?_⟩
        · show buf ++ [sites.get ⟨j, hj⟩] = sites.take (j + 1)
          rw [hcl.2.1, List.take_succ]
          simp [List.getElem?_eq_getElem hj, List.get_eq_getElem]
        · show j + 1 ≤ sites.length
          omega
      · intro r hr
        exact ReaderState.noConfusion hr
    · have hstep : stepGetSites ⟨sites, readers, writerHeld, .copying buf j, wpc⟩ =
          ⟨sites, readers - 1, writerHeld, .finished buf, wpc⟩ := by
        simp [stepGetSites, hj]
      rw [hstep]
      have hr1 : readers = 1 := by simpa [readerCount] using h3
      refine ⟨h1, h2, ?_, ?_, ?_⟩
      · show readers - 1 = readerCount (.finished buf)
        simp [readerCount, hr1]
      · intro buf2 j2 hbj
        exact ReaderState.noConfusion hbj
      · intro r hr
        injection hr with hrr
        subst hrr
        have hjlen : j = sites.length := by omega
        have hfull : buf = sites := by
          rw [hcl.2.1, hjlen, List.take_length]
        rw [hfull, h2]
        split
        · exact Or.inl rfl
        · exact Or.inr rfl
  | finished r => exact ⟨h1, h2, h3, h4, h5⟩

theorem inv_stepUpdateSites (oldS newS : List SiteMetrics) (c : StoreConfig)
    (h : ConfigInv oldS newS c) :
    ConfigInv oldS newS (stepUpdateSites newS c) := by
  obtain ⟨sites, readers, writerHeld, rpc, wpc⟩ := c
  obtain ⟨h1, h2, h3, h4, h5⟩ := h
  simp only at h1 h2 h3 h4 h5
  match hw : wpc with
  | 0 =>
    by_cases hblock : writerHeld = true ∨ readers ≠ 0
    · have hstep : stepUpdateSites newS ⟨sites, readers, writerHeld, rpc, 0⟩ =
          ⟨sites, readers, writerHeld, rpc, 0⟩ := by
        rcases hblock with hb | hb
        · simp [stepUpdateSites, hb]
        · simp [stepUpdateSites, hb]
      rw [hstep]
      exact ⟨h1, h2, h3, h4, h5⟩
    · push_neg at hblock
      obtain ⟨hwf, hr0⟩ := hblock
      have hwfalse : writerHeld = false := by
        cases writerHeld
        · rfl
        · exact absurd rfl hwf
      have hstep : stepUpdateSites newS ⟨sites, readers, writerHeld, rpc, 0⟩ =
          ⟨sites, readers, true, rpc, 1⟩ := by
        simp [stepUpdateSites, hwfalse, hr0]
      rw [hstep]
      have hnocopy : ∀ buf j, rpc ≠ .copying buf j := by
        intro buf j hc
        have h3c := h3
        rw [hc] at h3c
        simp [readerCount] at h3c
        omega
      refine ⟨?_, ?_, ?_, ?_, ?_⟩
      · simp
      · simpa using h2
      · simpa using h3
      · intro buf j hbj
        exact absurd hbj (hnocopy buf j)
      · intro r hr
        exact h5 r hr
  | 1 =>
    have hnocopy : ∀ buf j, rpc ≠ .copying buf j := by
      intro buf j hc
      have := (h4 buf j hc).1
      omega
    have hstep : stepUpdateSites newS ⟨sites, readers, writerHeld, rpc, 1⟩ =
        ⟨newS, readers, writerHeld, rpc, 2⟩ := by
      simp [stepUpdateSites]
    rw [hstep]
    refine ⟨?_, ?_, ?_, ?_, ?_⟩
    · simpa using h1
    · simp
    · simpa using h3
    · intro buf j hbj
      exact absurd hbj (hnocopy buf j)
    · intro r hr
      exact h5 r hr
  | 2 =>
    have hnocopy : ∀ buf j, rpc ≠ .copying buf j := by
      intro buf j hc
      have := (h4 buf j hc).1
      omega
    have hstep : stepUpdateSites newS ⟨sites, readers, writerHeld, rpc, 2⟩ =
        ⟨sites, readers, false, rpc, 3⟩ := by
      simp [stepUpdateSites]
    rw [hstep]
    refine ⟨?_, ?_, ?_, ?_, ?_⟩
    · simp
    · simpa using h2
    · simpa using h3
    · intro buf j hbj
      exact absurd hbj (hnocopy buf j)
    · intro r hr
      exact h5 r hr
  | (k + 3) =>
    have hstep : stepUpdateSites newS ⟨sites, readers, writerHeld, rpc, k + 3⟩ =
        ⟨sites, readers, writerHeld, rpc, k + 3⟩ := by
      simp [stepUpdateSites]
    rw [hstep]
    exact ⟨h1, h2, h3, h4, h5⟩

theorem inv_runSchedule (oldS newS : List SiteMetrics) (sched : List Bool)
    (c : StoreConfig) (h : ConfigInv oldS newS c) :
    ConfigInv oldS newS (runSchedule newS sched c) := by
  induction sched generalizing c with
  | nil => exact h
  | cons b sched ih =>
    cases b with
    | true => exact ih _ (inv_stepGetSites oldS newS c h)
    | false => exact ih _ (inv_stepUpdateSites oldS newS c h)

/-- C9: under any interleaving of one `GetSites` call with one
`UpdateSites newS` call on a store holding `oldS`, a snapshot the reader
returns is exactly the full old site list or exactly the full new one —
never a partially-updated mixture: the RWMutex keeps the writer's
assignment outside the reader's copy loop. -/
theorem snapshot_never_partial (oldS newS : List SiteMetrics)
    (sched : List Bool) (r : List SiteMetrics)
    (h : (runSchedule newS sched (initConfig oldS)).rpc = .finished r) :
    r = oldS ∨ r = newS :=
  (inv_runSchedule oldS newS sched (initConfig oldS)
    (inv_initConfig oldS newS)).2.2.2.2 r h

/-- Witness for C9: a schedule where the reader is preempted mid-copy by
the (blocked) writer and then finishes; the snapshot equals the full old
one-record list. -/
theorem snapshot_never_partial_witness :
    [demoSite] = [demoSite] ∨
      [demoSite] = ([{ demoSite with metricsData := [] }] : List SiteMetrics) :=
  snapshot_never_partial [demoSite] [{ demoSite with metricsData := [] }]
    [true, false, true, true, false, false, false] [demoSite] (by decide)

theorem mem_insertKey_self (l : List String) (k : String) : k ∈ insertKey l k := by
  unfold insertKey
  split
  · next hc => simpa using hc
  · exact List.mem_append_right _ (List.mem_singleton.mpr rfl)

theorem mem_foldl_insertKey_of_mem (xs : List String) :
    ∀ (d : List String) (k : String), k ∈ xs → k ∈ xs.foldl insertKey d := by
  induction xs with
  | nil => intro d k h; simp at h
  | cons x xs ih =>
    intro d k h
    rcases List.mem_cons.mp h with rfl | hx
    · by_cases hxs : k ∈ xs
      · exact ih (insertKey d k) k hxs
      · exact mem_foldl_of_mem insertKey (fun d y k hk => mem_insertKey d k y hk)
          xs (insertKey d k) k (mem_insertKey_self d k)
    · exact ih (insertKey d x) k hx

/-- `InitializeDiscoveredSites` establishes the C4 invariant: afterwards,
every site currently in the store has its identity key in the Discovery
Set. -/
theorem initialize_establishes_discovered (d : List String)
    (sites : List SiteMetrics) :
    ∀ s ∈ sites, siteKey s.account s.siteName ∈ InitializeDiscoveredSites d sites := by
  intro s hs
  unfold InitializeDiscoveredSites
  induction sites generalizing d with
  | nil => simp at hs
  | cons t ts ih =>
    rcases List.mem_cons.mp hs with rfl | hts
    · by_cases hmem : s ∈ ts
      · exact ih (insertKey d (siteKey s.account s.siteName)) hmem
      · exact mem_foldl_of_mem _ (fun d x k hk => mem_insertKey d k _ hk) ts
          (insertKey d (siteKey s.account s.siteName))
          (siteKey s.account s.siteName)
          (mem_insertKey_self d (siteKey s.account s.siteName))
    · exact ih (insertKey d (siteKey t.account t.siteName)) hts

/-- A discovery cycle preserves the C4 invariant: the store it installs via
`UpdateSites` holds exactly the newly fetched keys, and each of them is in
the Discovery Set the cycle leaves behind. -/
theorem cycle_preserves_discovered (currentSites newSites discoveredSites : List String)
    (hinv : ∀ k ∈ currentSites, k ∈ discoveredSites) :
    ∀ k ∈ newSites,
      k ∈ (refreshAllSiteListsDiff currentSites newSites discoveredSites).discoveredSites := by
  intro k hknew
  unfold refreshAllSiteListsDiff
  by_cases hd : k ∈ discoveredSites
  · exact mem_foldl_of_mem insertKey (fun d x k hk => mem_insertKey d k x hk)
      _ discoveredSites k hd
  · have hcur : k ∉ currentSites := fun hc => hd (hinv k hc)
    have hadded : k ∈ findAddedSites currentSites newSites discoveredSites := by
      unfold findAddedSites
      rw [List.mem_filter]
      exact ⟨hknew, by simp [hcur, hd]⟩
    exact mem_foldl_insertKey_of_mem _ discoveredSites k hadded
